import Mathlib

/-!
Verification of the meta-tx transfer script (src/tx.py) against its
natural-language specification.

Embedding conventions:
* The remote node is modelled as a response oracle `o : Nat → Nat`; the i-th
  RPC query made by the program returns `o i`.  Every embedded operation takes
  the index `k` of its first query and returns the index following its last
  query, together with a trace of observable events (queries, broadcasts,
  sleeps, the prints that the specification talks about).
* Python exceptions are modelled by `Except Err`; the partial event trace
  produced before an exception is kept alongside the error, matching the fact
  that side effects before a `raise` have already happened.
* Addresses are abstract distinct constants (elliptic-curve derivation of the
  addresses from the private keys is outside the embedding); the transaction
  hash returned by `send_raw_transaction` is modelled by the signed payload
  itself.
* `f"{x:.{p}f}"` applied to `a / 10**18` (float division in
  `format_token_amount`, exact `Decimal` division inside `w3.from_wei` in
  `format_eth_amount`) is modelled by exact rational rendering with
  round-half-even (`pyFormatDiv`).  Strings are modelled as `List Char`.
-/

namespace MetaTx

/-- Round `num / den` to the nearest integer, ties to even
(the rounding used by Python's fixed-point formatting). -/
def roundHalfEven (num den : Nat) : Nat :=
  let q := num / den
  let r := num % den
  if 2 * r < den then q
  else if den < 2 * r then q + 1
  else if q % 2 = 0 then q else q + 1

/-- Decimal digits of `n`, most significant first; structural recursion on a
fuel argument so that the function evaluates by kernel reduction. -/
def natCharsAux : Nat → Nat → List Char
  | 0, _ => []
  | f + 1, n =>
    if n < 10 then [Nat.digitChar n]
    else natCharsAux f (n / 10) ++ [Nat.digitChar (n % 10)]

/-- Decimal rendering of a natural number. -/
def natChars (n : Nat) : List Char := natCharsAux (n + 1) n

/-- Left-pad a digit string with zeros to width `p`. -/
def padLeft (p : Nat) (s : List Char) : List Char :=
  List.replicate (p - s.length) '0' ++ s

/-- Model of the Python rendering `f"{a/d:.{p}f}"` (value taken exactly). -/
def pyFormatDiv (a d p : Nat) : List Char :=
  if p = 0 then natChars (roundHalfEven a d)
  else
    let scaled := roundHalfEven (a * 10 ^ p) d
    natChars (scaled / 10 ^ p) ++ '.' :: padLeft p (natChars (scaled % 10 ^ p))

/-- The literal suffix `".00000000"` tested by both formatters. -/
def dotZeros8 : List Char := '.' :: List.replicate 8 '0'

/-- Python's `s.rstrip(c)` for a single strip character. -/
def rstripL (c : Char) (s : List Char) : List Char :=
  (s.reverse.dropWhile (fun x => x == c)).reverse

/-- Python's `s.endswith(pat)`. -/
def endsWithL (s pat : List Char) : Bool :=
  s.drop (s.length - pat.length) == pat

/-- Embedding of `format_token_amount` (src/tx.py lines 64-70).  The float
division `amount / 10**18` is modelled by exact rendering `pyFormatDiv`. -/
def format_token_amount (amount : Nat) (decimals : Nat := 8) : List Char :=
  let formatted := pyFormatDiv amount (10 ^ 18) decimals
  if formatted.contains '.' then
    if endsWithL formatted dotZeros8 then rstripL '.' (rstripL '0' formatted)
    else formatted
  else formatted

/-- Embedding of `format_eth_amount` (src/tx.py lines 72-78);
`w3.from_wei(x, 'ether')` is the exact division by `10^18`. -/
def format_eth_amount (amount_wei : Nat) (decimals : Nat := 8) : List Char :=
  let formatted := pyFormatDiv amount_wei (10 ^ 18) decimals
  if formatted.contains '.' then
    if endsWithL formatted dotZeros8 then rstripL '.' (rstripL '0' formatted)
    else formatted
  else formatted

/-! ### Substring search (Python's `in` on strings) -/

/-- Python's `s.startswith(pat)` over character lists. -/
def hasPrefixL : List Char → List Char → Bool
  | [], _ => true
  | _ :: _, [] => false
  | a :: as, b :: bs => a == b && hasPrefixL as bs

/-- Python's `pat in s`: `pat` occurs contiguously in `s`. -/
def containsSeq (pat : List Char) : List Char → Bool
  | [] => pat.isEmpty
  | c :: rest => hasPrefixL pat (c :: rest) || containsSeq pat rest

/-! ### Chain model -/

/-- Abstract addresses; the checksum derivation from the private keys is
outside the embedding, so the three addresses are distinct constants. -/
abbrev Addr := Nat

/-- Holder address, derived from `private_key1` (src/tx.py line 14). -/
def address1 : Addr := 1

/-- Funder address, derived from `private_key2` (src/tx.py line 15). -/
def address2 : Addr := 2

/-- Token contract address (src/tx.py line 18). -/
def TOKEN_ADDRESS : Addr := 3

/-- Holder private key (src/tx.py line 12). -/
def private_key1 : Nat :=
  0x5b8b9789e738c4563a3c330ff174296d0626ea72ebdcd0ae0d51406aec3bb62d

/-- Funder private key (src/tx.py line 13). -/
def private_key2 : Nat :=
  0x7a903b69badb20d026fc0c1f72f8b634c06b47f2a9d6b62c0fcf83aa969fd4fa

/-- Payload of a contract call placed in a transaction's `data` field; the
script only ever encodes `transfer(to, value)`. -/
inductive CallData where
  | transfer (toAddr : Addr) (value : Nat)
deriving DecidableEq

/-- A transaction request as built by the script (src/tx.py lines 110-117 and
130-137).  `data = none` is a plain native transfer. -/
structure Tx where
  toAddr : Addr
  value : Nat
  gas : Nat
  gasPrice : Nat
  nonce : Nat
  chainId : Nat
  data : Option CallData
deriving DecidableEq

/-- `w3.eth.account.sign_transaction tx key`; the broadcast hash is modelled
by the signed payload itself. -/
structure SignedTx where
  tx : Tx
  key : Nat
deriving DecidableEq

/-- Python exceptions distinguished by the cycle's handler
(src/tx.py lines 194-199). -/
inductive Err where
  | valueError (msg : List Char)
  | contractLogicError (msg : List Char)
  | other (name msg : List Char)
deriving DecidableEq

/-- Observable events of a run: RPC queries (with the value the node
returned), broadcasts, sleeps, and the prints the specification mentions.
Other console output is not modelled. -/
inductive Event where
  | querySymbol
  | queryTokenBalance (a : Addr) (res : Nat)
  | queryEthBalance (a : Addr) (res : Nat)
  | queryGasPrice (res : Nat)
  | queryNonce (a : Addr) (res : Nat)
  | sendRaw (s : SignedTx)
  | sleep (secs : Nat)
  | printReport
  | printMsg (m : List Char)
  | printError (label msg : List Char)
  | cycleStart (i : Nat)
deriving DecidableEq

/-- Recognizes a broadcast event. -/
def isSendRaw : Event → Bool
  | .sendRaw _ => true
  | _ => false

/-- Recognizes the start-of-cycle marker emitted by the top-level loop. -/
def isCycleStart : Event → Bool
  | .cycleStart _ => true
  | _ => false

/-- Recognizes an error print emitted by the cycle's exception handler. -/
def isPrintError : Event → Bool
  | .printError _ _ => true
  | _ => false

/-- `estimate_gas_cost` (src/tx.py lines 92-93). -/
def estimate_gas_cost : Nat := 150000

/-- Rendering of an address inside an f-string (abstract). -/
def addrChars (a : Addr) : List Char := natChars a

/-- The insufficient-balance message raised by `send_gas_fee`
(src/tx.py lines 104-108). -/
def insufficient_msg (needed required_eth sender_balance : Nat) : List Char :=
  "\nSaldo ETH tidak cukup. Deposit minimal ".data ++
    (format_eth_amount needed ++
      (" ETH ke address:\n".data ++
        (addrChars address2 ++
          ("\n".data ++
            ("Total dibutuhkan: ".data ++
              (format_eth_amount required_eth ++
                (" ETH\n".data ++
                  ("Saldo saat ini: ".data ++
                    (format_eth_amount sender_balance ++ " ETH".data)))))))))

/-- The empty-balance message raised by `transfer_all_tokens`
(src/tx.py line 128). -/
def empty_msg : List Char :=
  "Saldo token kosong, tidak ada yang bisa ditransfer".data

/-- The no-token message printed by the cycle (src/tx.py line 192). -/
def nothing_msg : List Char :=
  "\nTidak ada token yang bisa ditransfer (saldo = 0)".data

/-- Embedding of `send_gas_fee` (src/tx.py lines 95-121).  Queries, in
program order: `w3.eth.gas_price` (slot `k`), `w3.eth.get_balance(address2)`
(slot `k+1`), and — only on the sufficient branch —
`w3.eth.get_transaction_count(address2)` (slot `k+2`). -/
def send_gas_fee (o : Nat → Nat) (k : Nat) :
    Except Err (SignedTx × Nat) × Nat × List Event :=
  let gas_cost := estimate_gas_cost
  let gas_price := o k
  let required_eth := gas_cost * gas_price
  let sender_balance := o (k + 1)
  if sender_balance < required_eth then
    (.error (.valueError (insufficient_msg (required_eth - sender_balance)
        required_eth sender_balance)), k + 2,
      [.queryGasPrice gas_price, .queryEthBalance address2 sender_balance])
  else
    let nonce := o (k + 2)
    let tx : Tx := { toAddr := address1, value := required_eth, gas := 21000,
                     gasPrice := gas_price, nonce := nonce, chainId := 10,
                     data := none }
    let signed : SignedTx := ⟨tx, private_key2⟩
    (.ok (signed, required_eth), k + 3,
      [.queryGasPrice gas_price, .queryEthBalance address2 sender_balance,
       .queryNonce address2 nonce, .sendRaw signed])

/-- Embedding of `transfer_all_tokens` (src/tx.py lines 123-141).  Queries,
in program order: `balanceOf(address1)` (slot `k`), then on the non-empty
branch `w3.eth.gas_price` (slot `k+1`) and
`w3.eth.get_transaction_count(address1)` (slot `k+2`), matching the
evaluation order of the `build_transaction` dict literal. -/
def transfer_all_tokens (o : Nat → Nat) (k : Nat) :
    Except Err SignedTx × Nat × List Event :=
  let balance := o k
  if balance = 0 then
    (.error (.valueError empty_msg), k + 1,
      [.queryTokenBalance address1 balance])
  else
    let gas_price := o (k + 1)
    let nonce := o (k + 2)
    let tx : Tx := { toAddr := TOKEN_ADDRESS, value := 0,
                     gas := estimate_gas_cost, gasPrice := gas_price,
                     nonce := nonce, chainId := 10,
                     data := some (.transfer address2 balance) }
    let signed : SignedTx := ⟨tx, private_key1⟩
    (.ok signed, k + 3,
      [.queryTokenBalance address1 balance, .queryGasPrice gas_price,
       .queryNonce address1 nonce, .sendRaw signed])

/-- Trace of `print_balance_info` (src/tx.py lines 143-160): the symbol query,
four balance queries in source order, and the printed report.  The symbol is
immutable token metadata and consumes no oracle slot. -/
def pbiTrace (o : Nat → Nat) (k : Nat) : List Event :=
  [.querySymbol, .queryTokenBalance address1 (o k),
   .queryTokenBalance address2 (o (k + 1)),
   .queryEthBalance address1 (o (k + 2)),
   .queryEthBalance address2 (o (k + 3)), .printReport]

/-- Embedding of `print_balance_info` (src/tx.py lines 143-160); consumes
four oracle slots. -/
def print_balance_info (o : Nat → Nat) (k : Nat) : Nat × List Event :=
  (k + 4, pbiTrace o k)

/-- The `try`-block of `execute_transfer_cycle` (src/tx.py lines 164-192):
report, fresh guard query of the Holder's token balance (line 171), then on
the positive branch `send_gas_fee`, sleep 1, `transfer_all_tokens`, sleep 1
and a second report.  An error from either send step propagates together
with the trace produced so far. -/
def cycle_body (o : Nat → Nat) (k : Nat) :
    Except Err Unit × Nat × List Event :=
  let r1 := print_balance_info o k
  let guard := o r1.1
  let tq : List Event := [.queryTokenBalance address1 guard]
  if 0 < guard then
    match send_gas_fee o (r1.1 + 1) with
    | (.error e, k2, t2) => (.error e, k2, r1.2 ++ tq ++ t2)
    | (.ok _, k2, t2) =>
      match transfer_all_tokens o k2 with
      | (.error e, k3, t4) =>
          (.error e, k3, r1.2 ++ tq ++ t2 ++ [.sleep 1] ++ t4)
      | (.ok _, k3, t4) =>
          let r5 := print_balance_info o k3
          (.ok (), r5.1,
            r1.2 ++ tq ++ t2 ++ [.sleep 1] ++ t4 ++ [.sleep 1] ++ r5.2)
  else
    (.ok (), r1.1 + 1, r1.2 ++ tq ++ [.printMsg nothing_msg])

/-- The label attached by the cycle's exception handler
(src/tx.py lines 194-199). -/
def error_label : Err → List Char
  | .valueError _ => "ERROR".data
  | .contractLogicError _ => "ERROR KONTRAK".data
  | .other _ _ => "ERROR TIDAK DIKENAL".data

/-- The text printed for an exception: `str(e)` for the first two handlers,
`f"{type(e).__name__}: {e}"` for the catch-all. -/
def err_text : Err → List Char
  | .valueError m => m
  | .contractLogicError m => m
  | .other n m => n ++ ": ".data ++ m

/-- The print performed by the matching `except` clause. -/
def error_event (e : Err) : Event := .printError (error_label e) (err_text e)

/-- Embedding of `execute_transfer_cycle` (src/tx.py lines 162-199): run the
body; every exception is caught and turned into a labelled error print. -/
def execute_transfer_cycle (o : Nat → Nat) (k : Nat) : Nat × List Event :=
  match cycle_body o k with
  | (.ok _, k1, t) => (k1, t)
  | (.error e, k1, t) => (k1, t ++ [error_event e])

/-- Embedding of the top-level loop (src/tx.py lines 201-218): `n` is the
number of cycles that run before the cancellation signal flips the running
flag; `i` is the printed cycle counter.  Each iteration marks the cycle
start, runs one cycle, and sleeps one unit. -/
def run_cycles (o : Nat → Nat) : Nat → Nat → Nat → Nat × List Event
  | k, _, 0 => (k, [])
  | k, i, n + 1 =>
    let c := execute_transfer_cycle o k
    let rest := run_cycles o c.1 (i + 1) n
    (rest.1, (Event.cycleStart i :: c.2) ++ Event.sleep 1 :: rest.2)

/-! ### Claim-side transaction descriptions -/

/-- The funding transaction as the specification describes it: a plain native
transfer of exactly `150000 * gp` from Funder to Holder with gas limit 21000,
current gas price, Funder's nonce, chain id 10, signed with the Funder's
key. -/
def fundingTx (gp nonce : Nat) : SignedTx :=
  ⟨{ toAddr := address1, value := 150000 * gp, gas := 21000, gasPrice := gp,
     nonce := nonce, chainId := 10, data := none }, private_key2⟩

/-- The sweep transaction as the specification describes it: a call of the
token's `transfer(Funder, full balance)` with gas limit 150000, current gas
price, Holder's nonce, chain id 10, signed with the Holder's key. -/
def sweepTx (b gp nonce : Nat) : SignedTx :=
  ⟨{ toAddr := TOKEN_ADDRESS, value := 0, gas := 150000, gasPrice := gp,
     nonce := nonce, chainId := 10,
     data := some (.transfer address2 b) }, private_key1⟩

/-! ### Lemmas about digit rendering -/

theorem digitChar_isDigit (d : Nat) (h : d < 10) :
    (Nat.digitChar d).isDigit = true := by
  interval_cases d <;> decide

theorem digitChar_eq_zero (d : Nat) (h : d < 10) :
    Nat.digitChar d = '0' → d = 0 := by
  interval_cases d <;> decide

theorem isDigit_ne_dot (c : Char) (h : c.isDigit = true) : c ≠ '.' := by
  rintro rfl; exact absurd h (by decide)

theorem natCharsAux_digits :
    ∀ f n, n < f → ∀ c ∈ natCharsAux f n, c.isDigit = true := by
  intro f
  induction f with
  | zero => intro n hn; exact absurd hn (Nat.not_lt_zero n)
  | succ f ih =>
    intro n hn c hc
    simp only [natCharsAux] at hc
    by_cases h10 : n < 10
    · rw [if_pos h10] at hc
      simp only [List.mem_singleton] at hc
      subst hc; exact digitChar_isDigit n h10
    · rw [if_neg h10] at hc
      rcases List.mem_append.mp hc with h | h
      · have hdiv : n / 10 < n := Nat.div_lt_self (by omega) (by omega)
        exact ih (n / 10) (by omega) c h
      · simp only [List.mem_singleton] at h
        subst h; exact digitChar_isDigit _ (Nat.mod_lt n (by omega))

theorem natChars_digits (n : Nat) : ∀ c ∈ natChars n, c.isDigit = true :=
  natCharsAux_digits (n + 1) n (Nat.lt_succ_self n)

theorem natChars_no_dot (n : Nat) : '.' ∉ natChars n := fun h =>
  isDigit_ne_dot '.' (natChars_digits n '.' h) rfl

theorem natCharsAux_shape (f n : Nat) (h : n < f) :
    ∃ pre d, natCharsAux f n = pre ++ [Nat.digitChar d] ∧ d < 10 := by
  cases f with
  | zero => exact absurd h (Nat.not_lt_zero n)
  | succ f =>
    by_cases h10 : n < 10
    · exact ⟨[], n, by simp [natCharsAux, if_pos h10], h10⟩
    · exact ⟨natCharsAux f (n / 10), n % 10,
        by simp [natCharsAux, if_neg h10], Nat.mod_lt n (by omega)⟩

theorem natChars_shape (n : Nat) :
    ∃ pre d, natChars n = pre ++ [Nat.digitChar d] ∧ d < 10 :=
  natCharsAux_shape (n + 1) n (Nat.lt_succ_self n)

theorem natCharsAux_length_le :
    ∀ f n p, n < f → n < 10 ^ p → 1 ≤ p → (natCharsAux f n).length ≤ p := by
  intro f
  induction f with
  | zero => intro n p hn; exact absurd hn (Nat.not_lt_zero n)
  | succ f ih =>
    intro n p hn hp hp1
    simp only [natCharsAux]
    by_cases h10 : n < 10
    · rw [if_pos h10]; simpa using hp1
    · rw [if_neg h10]
      have h2 : 2 ≤ p := by
        by_contra hc
        have : p = 1 := by omega
        subst this; simp at hp; omega
      have hdiv : n / 10 < n := Nat.div_lt_self (by omega) (by omega)
      have hdivp : n / 10 < 10 ^ (p - 1) := by
        rw [Nat.div_lt_iff_lt_mul (by omega : 0 < 10)]
        calc n < 10 ^ p := hp
        _ = 10 ^ (p - 1) * 10 := by
              rw [← pow_succ]; congr 1; omega
      have := ih (n / 10) (p - 1) (by omega) hdivp (by omega)
      simp only [List.length_append, List.length_singleton]
      omega

theorem natChars_length_le (n p : Nat) (hp : n < 10 ^ p) (hp1 : 1 ≤ p) :
    (natChars n).length ≤ p :=
  natCharsAux_length_le (n + 1) n p (Nat.lt_succ_self n) hp hp1

theorem natCharsAux_eq_zero :
    ∀ f n, n < f → (∀ c ∈ natCharsAux f n, c = '0') → n = 0 := by
  intro f
  induction f with
  | zero => intro n hn; exact absurd hn (Nat.not_lt_zero n)
  | succ f ih =>
    intro n hn hall
    by_cases h10 : n < 10
    · refine digitChar_eq_zero n h10 (hall _ ?_)
      simp [natCharsAux, if_pos h10]
    · exfalso
      have hdiv : n / 10 < n := Nat.div_lt_self (by omega) (by omega)
      have : n / 10 = 0 := by
        refine ih (n / 10) (by omega) ?_
        intro c hc
        refine hall c ?_
        simp only [natCharsAux, if_neg h10]
        exact List.mem_append.mpr (Or.inl hc)
      omega

theorem natChars_eq_zero (n : Nat) (h : ∀ c ∈ natChars n, c = '0') : n = 0 :=
  natCharsAux_eq_zero (n + 1) n (Nat.lt_succ_self n) h

theorem padLeft_digits (p m : Nat) :
    ∀ c ∈ padLeft p (natChars m), c.isDigit = true := by
  intro c hc
  rcases List.mem_append.mp hc with h | h
  · rw [List.eq_of_mem_replicate h]; decide
  · exact natChars_digits m c h

theorem padLeft_length (p : Nat) (s : List Char) (h : s.length ≤ p) :
    (padLeft p s).length = p := by
  simp [padLeft]; omega

/-! ### Lemmas about `endsWithL`, stripping, and the formatters -/

theorem endsWithL_iff (s pat : List Char) :
    endsWithL s pat = true ↔ ∃ A, s = A ++ pat := by
  unfold endsWithL
  constructor
  · intro h
    refine ⟨s.take (s.length - pat.length), ?_⟩
    conv_lhs => rw [← List.take_append_drop (s.length - pat.length) s]
    rw [eq_of_beq h]
  · rintro ⟨A, rfl⟩
    have hlen : (A ++ pat).length - pat.length = A.length := by simp
    rw [hlen, List.drop_left]
    exact beq_self_eq_true pat

/-- Characterization of the `.endswith('.00000000')` test on a rendering with
an all-digit fractional part of width `p`: it holds exactly when `p = 8` and
every fractional digit is zero. -/
theorem endsWith_dotZeros8_iff (I F : List Char) (p : Nat)
    (hF : ∀ c ∈ F, c.isDigit = true) (hlen : F.length = p) :
    endsWithL (I ++ '.' :: F) dotZeros8 = true ↔
      p = 8 ∧ F = List.replicate 8 '0' := by
  constructor
  · intro h
    obtain ⟨A, hA⟩ := (endsWithL_iff _ _).mp h
    rw [dotZeros8] at hA
    rcases List.append_eq_append_iff.mp hA with ⟨a', _, h2⟩ | ⟨c', hc, h2⟩
    · cases a' with
      | nil =>
        simp only [List.nil_append, List.cons.injEq] at h2
        refine ⟨?_, h2.2⟩
        rw [← hlen, h2.2]; rfl
      | cons c t =>
        exfalso
        simp only [List.cons_append, List.cons.injEq] at h2
        have hdom : ('.' : Char) ∈ F := by
          rw [h2.2]
          exact List.mem_append.mpr (Or.inr (List.mem_cons_self _ _))
        exact isDigit_ne_dot '.' (hF '.' hdom) rfl
    · cases c' with
      | nil =>
        simp only [List.nil_append, List.cons.injEq] at h2
        refine ⟨?_, h2.2.symm⟩
        rw [← hlen, ← h2.2]; rfl
      | cons c t =>
        exfalso
        simp only [List.cons_append, List.cons.injEq] at h2
        have hdom : ('.' : Char) ∈ List.replicate 8 '0' := by
          rw [h2.2]
          exact List.mem_append.mpr (Or.inr (List.mem_cons_self _ _))
        have := List.eq_of_mem_replicate hdom
        exact absurd this (by decide)
  · rintro ⟨hp, hFz⟩
    subst hFz
    exact (endsWithL_iff _ _).mpr ⟨I, by rw [dotZeros8]⟩

theorem dropWhile_zero_replicate (n : Nat) (l : List Char) :
    List.dropWhile (fun x => x == '0') (List.replicate n '0' ++ l) =
      List.dropWhile (fun x => x == '0') l := by
  induction n with
  | zero => rfl
  | succ n ih => simp [List.replicate_succ, List.dropWhile_cons, ih]

/-- Value of the two-stage strip on a rendering whose fractional part is all
zeros: the integer part alone survives. -/
theorem strip_dotZeros8 (m : Nat) :
    rstripL '.' (rstripL '0' (natChars m ++ '.' :: List.replicate 8 '0')) =
      natChars m := by
  have h1 : rstripL '0' (natChars m ++ '.' :: List.replicate 8 '0') =
      natChars m ++ ['.'] := by
    unfold rstripL
    rw [List.reverse_append]
    simp only [List.reverse_cons, List.reverse_replicate]
    rw [List.append_assoc, dropWhile_zero_replicate]
    simp [List.dropWhile_cons]
  rw [h1]
  unfold rstripL
  rw [List.reverse_append]
  obtain ⟨pre, d, hshape, hd⟩ := natChars_shape m
  rw [hshape, List.reverse_append]
  have hne : (Nat.digitChar d == '.') = false :=
    beq_eq_false_iff_ne.mpr (isDigit_ne_dot _ (digitChar_isDigit d hd))
  simp [List.dropWhile_cons, hne]

theorem contains_dot_append (I F : List Char) :
    (I ++ '.' :: F).contains '.' = true := by
  simp [List.contains]

theorem contains_dot_natChars (n : Nat) :
    (natChars n).contains '.' = false := by
  simp [List.contains, List.elem_eq_mem, natChars_no_dot n]

theorem pyFormatDiv_pos_split (a q : Nat) (hq : 1 ≤ q) :
    pyFormatDiv a (10 ^ 18) q =
      natChars (roundHalfEven (a * 10 ^ q) (10 ^ 18) / 10 ^ q) ++
        '.' :: padLeft q (natChars (roundHalfEven (a * 10 ^ q) (10 ^ 18) % 10 ^ q)) := by
  unfold pyFormatDiv
  rw [if_neg (by omega)]

theorem padLeft_frac_length (a q : Nat) (hq : 1 ≤ q) :
    (padLeft q (natChars (roundHalfEven (a * 10 ^ q) (10 ^ 18) % 10 ^ q))).length
      = q :=
  padLeft_length _ _
    (natChars_length_le _ _ (Nat.mod_lt _ (pow_pos (by omega) q)) hq)

theorem padLeft_eq_replicate_iff (m : Nat) :
    padLeft 8 (natChars m) = List.replicate 8 '0' ↔ m = 0 := by
  constructor
  · intro h
    refine natChars_eq_zero m ?_
    intro c hc
    have hmem : c ∈ List.replicate 8 '0' := by
      rw [← h]
      exact List.mem_append.mpr (Or.inr hc)
    exact List.eq_of_mem_replicate hmem
  · rintro rfl
    decide

/-- C5: with the default precision 8, `format_token_amount a` is the
rendering of `a / 10^18` to 8 fractional digits, with the trailing zeros and
the decimal point stripped exactly when the unstripped rendering ends in
`.00000000` (equivalently, when all 8 fractional digits are zero, leaving
just the integer part); with any precision other than 8 the rendering is
returned unchanged, so stripping never occurs. -/
theorem format_token_amount_correct (a p : Nat) :
    (p ≠ 8 → format_token_amount a p = pyFormatDiv a (10 ^ 18) p) ∧
    (endsWithL (pyFormatDiv a (10 ^ 18) 8) dotZeros8 = true ↔
       roundHalfEven (a * 10 ^ 8) (10 ^ 18) % 10 ^ 8 = 0) ∧
    (roundHalfEven (a * 10 ^ 8) (10 ^ 18) % 10 ^ 8 = 0 →
       format_token_amount a 8
         = natChars (roundHalfEven (a * 10 ^ 8) (10 ^ 18) / 10 ^ 8)) ∧
    (roundHalfEven (a * 10 ^ 8) (10 ^ 18) % 10 ^ 8 ≠ 0 →
       format_token_amount a 8 = pyFormatDiv a (10 ^ 18) 8) := by
  have hEnds : ∀ q, 1 ≤ q →
      (endsWithL (pyFormatDiv a (10 ^ 18) q) dotZeros8 = true ↔
        q = 8 ∧ padLeft q (natChars (roundHalfEven (a * 10 ^ q) (10 ^ 18) % 10 ^ q))
          = List.replicate 8 '0') := by
    intro q hq
    rw [pyFormatDiv_pos_split a q hq]
    exact endsWith_dotZeros8_iff _ _ q (padLeft_digits q _)
      (padLeft_frac_length a q hq)
  have hIff8 : endsWithL (pyFormatDiv a (10 ^ 18) 8) dotZeros8 = true ↔
      roundHalfEven (a * 10 ^ 8) (10 ^ 18) % 10 ^ 8 = 0 := by
    rw [hEnds 8 (by omega)]
    rw [padLeft_eq_replicate_iff]
    simp
  refine ⟨?_, hIff8, ?_, ?_⟩
  · intro hp
    rcases Nat.eq_zero_or_pos p with h0 | h1
    · subst h0
      simp only [format_token_amount]
      have hform : pyFormatDiv a (10 ^ 18) 0 = natChars (roundHalfEven a (10 ^ 18)) := by
        unfold pyFormatDiv; rw [if_pos rfl]
      rw [hform, contains_dot_natChars, if_neg (by simp)]
    · simp only [format_token_amount]
      have hc : (pyFormatDiv a (10 ^ 18) p).contains '.' = true := by
        rw [pyFormatDiv_pos_split a p h1]
        exact contains_dot_append _ _
      rw [hc, if_pos rfl]
      have he : endsWithL (pyFormatDiv a (10 ^ 18) p) dotZeros8 = false := by
        by_contra hcon
        have : endsWithL (pyFormatDiv a (10 ^ 18) p) dotZeros8 = true := by
          revert hcon
          cases endsWithL (pyFormatDiv a (10 ^ 18) p) dotZeros8 <;> simp
        exact hp ((hEnds p h1).mp this).1
      rw [he, if_neg (by simp)]
  · intro hz
    simp only [format_token_amount]
    have hc : (pyFormatDiv a (10 ^ 18) 8).contains '.' = true := by
      rw [pyFormatDiv_pos_split a 8 (by omega)]
      exact contains_dot_append _ _
    rw [hc, if_pos rfl, hIff8.mpr hz, if_pos rfl]
    rw [pyFormatDiv_pos_split a 8 (by omega)]
    rw [(padLeft_eq_replicate_iff _).mpr hz]
    exact strip_dotZeros8 _
  · intro hnz
    simp only [format_token_amount]
    have hc : (pyFormatDiv a (10 ^ 18) 8).contains '.' = true := by
      rw [pyFormatDiv_pos_split a 8 (by omega)]
      exact contains_dot_append _ _
    rw [hc, if_pos rfl]
    have he : endsWithL (pyFormatDiv a (10 ^ 18) 8) dotZeros8 = false := by
      by_contra hcon
      have : endsWithL (pyFormatDiv a (10 ^ 18) 8) dotZeros8 = true := by
        revert hcon
        cases endsWithL (pyFormatDiv a (10 ^ 18) 8) dotZeros8 <;> simp
      exact hnz (hIff8.mp this)
    rw [he, if_neg (by simp)]

/-- Witness for C5 at `a = 3·10^18` (strips to `"3"`) and precision 7 (left
unchanged). -/
theorem format_token_amount_correct_witness :
    format_token_amount (3 * 10 ^ 18) 8
        = natChars (roundHalfEven (3 * 10 ^ 18 * 10 ^ 8) (10 ^ 18) / 10 ^ 8) ∧
      format_token_amount (3 * 10 ^ 18) 7 = pyFormatDiv (3 * 10 ^ 18) (10 ^ 18) 7 :=
  ⟨(format_token_amount_correct (3 * 10 ^ 18) 8).2.2.1 (by decide),
   (format_token_amount_correct (3 * 10 ^ 18) 7).1 (by decide)⟩

/-! ### Lemmas about substring search -/

theorem hasPrefixL_append_self (p t : List Char) :
    hasPrefixL p (p ++ t) = true := by
  induction p with
  | nil => rfl
  | cons a as ih => simp [hasPrefixL, ih]

theorem containsSeq_nil_pat (t : List Char) : containsSeq [] t = true := by
  cases t with
  | nil => rfl
  | cons c rest => simp [containsSeq, hasPrefixL]

theorem containsSeq_self_append (pat t : List Char) :
    containsSeq pat (pat ++ t) = true := by
  cases pat with
  | nil => simpa using containsSeq_nil_pat t
  | cons a as =>
    simp [containsSeq, hasPrefixL, hasPrefixL_append_self]

theorem containsSeq_append_right (pat x y : List Char)
    (h : containsSeq pat y = true) : containsSeq pat (x ++ y) = true := by
  induction x with
  | nil => simpa using h
  | cons c x' ih => simp [containsSeq, ih]

/-! ### Branch behaviour of the two send operations -/

theorem send_gas_fee_err_eq (o : Nat → Nat) (k : Nat)
    (h : o (k + 1) < 150000 * o k) :
    send_gas_fee o k =
      (.error (.valueError (insufficient_msg (150000 * o k - o (k + 1))
          (150000 * o k) (o (k + 1)))),
       k + 2, [.queryGasPrice (o k), .queryEthBalance address2 (o (k + 1))]) := by
  simp only [send_gas_fee, estimate_gas_cost]
  rw [if_pos h]

theorem send_gas_fee_ok_eq (o : Nat → Nat) (k : Nat)
    (h : 150000 * o k ≤ o (k + 1)) :
    send_gas_fee o k =
      (.ok (fundingTx (o k) (o (k + 2)), 150000 * o k), k + 3,
       [.queryGasPrice (o k), .queryEthBalance address2 (o (k + 1)),
        .queryNonce address2 (o (k + 2)),
        .sendRaw (fundingTx (o k) (o (k + 2)))]) := by
  simp only [send_gas_fee, estimate_gas_cost, fundingTx]
  rw [if_neg (Nat.not_lt.mpr h)]

theorem transfer_all_tokens_err_eq (o : Nat → Nat) (k : Nat) (h : o k = 0) :
    transfer_all_tokens o k =
      (.error (.valueError empty_msg), k + 1,
       [.queryTokenBalance address1 (o k)]) := by
  simp only [transfer_all_tokens]
  rw [if_pos h]

theorem transfer_all_tokens_ok_eq (o : Nat → Nat) (k : Nat) (h : o k ≠ 0) :
    transfer_all_tokens o k =
      (.ok (sweepTx (o k) (o (k + 1)) (o (k + 2))), k + 3,
       [.queryTokenBalance address1 (o k), .queryGasPrice (o (k + 1)),
        .queryNonce address1 (o (k + 2)),
        .sendRaw (sweepTx (o k) (o (k + 1)) (o (k + 2)))]) := by
  simp only [transfer_all_tokens, estimate_gas_cost, sweepTx]
  rw [if_neg h]

/-- C1: whenever the Funder's native balance is strictly below
`150000 * gasPrice`, `send_gas_fee` raises the insufficient-balance
`ValueError`; its message contains the formatted shortfall, the formatted
required total and the formatted current balance, and the trace contains no
broadcast (no transaction is signed or broadcast: a `SignedTx` only ever
appears inside a `sendRaw` event). -/
theorem send_gas_fee_insufficient (o : Nat → Nat) (k : Nat)
    (h : o (k + 1) < 150000 * o k) :
    (send_gas_fee o k).1 = .error (.valueError
        (insufficient_msg (150000 * o k - o (k + 1)) (150000 * o k)
          (o (k + 1)))) ∧
    containsSeq (format_eth_amount (150000 * o k - o (k + 1)))
        (insufficient_msg (150000 * o k - o (k + 1)) (150000 * o k)
          (o (k + 1))) = true ∧
    containsSeq (format_eth_amount (150000 * o k))
        (insufficient_msg (150000 * o k - o (k + 1)) (150000 * o k)
          (o (k + 1))) = true ∧
    containsSeq (format_eth_amount (o (k + 1)))
        (insufficient_msg (150000 * o k - o (k + 1)) (150000 * o k)
          (o (k + 1))) = true ∧
    (send_gas_fee o k).2.2.countP isSendRaw = 0 := by
  refine ⟨?_, ?_, ?_, ?_, ?_⟩
  · rw [send_gas_fee_err_eq o k h]
  · unfold insufficient_msg
    exact containsSeq_append_right _ _ _ (containsSeq_self_append _ _)
  · unfold insufficient_msg
    refine containsSeq_append_right _ _ _ ?_
    refine containsSeq_append_right _ _ _ ?_
    refine containsSeq_append_right _ _ _ ?_
    refine containsSeq_append_right _ _ _ ?_
    refine containsSeq_append_right _ _ _ ?_
    refine containsSeq_append_right _ _ _ ?_
    exact containsSeq_self_append _ _
  · unfold insufficient_msg
    refine containsSeq_append_right _ _ _ ?_
    refine containsSeq_append_right _ _ _ ?_
    refine containsSeq_append_right _ _ _ ?_
    refine containsSeq_append_right _ _ _ ?_
    refine containsSeq_append_right _ _ _ ?_
    refine containsSeq_append_right _ _ _ ?_
    refine containsSeq_append_right _ _ _ ?_
    refine containsSeq_append_right _ _ _ ?_
    refine containsSeq_append_right _ _ _ ?_
    exact containsSeq_self_append _ _
  · rw [send_gas_fee_err_eq o k h]
    simp [List.countP_cons, isSendRaw]

/-- Oracle for the C1 witness: gas price 1, Funder balance 1 < 150000. -/
def oC1 : Nat → Nat := fun _ => 1

/-- Witness for C1: the message carries the exact formatted shortfall. -/
theorem send_gas_fee_insufficient_witness :
    containsSeq (format_eth_amount (150000 * oC1 0 - oC1 1))
        (insufficient_msg (150000 * oC1 0 - oC1 1) (150000 * oC1 0)
          (oC1 1)) = true :=
  (send_gas_fee_insufficient oC1 0 (by decide)).2.1

/-- C2: when the Holder's token balance read by `transfer_all_tokens` is 0,
it raises the empty-balance `ValueError` ("Saldo token kosong, tidak ada
yang bisa ditransfer") after its single balance query, and no transaction is
signed or broadcast. -/
theorem transfer_all_tokens_empty (o : Nat → Nat) (k : Nat) (h : o k = 0) :
    transfer_all_tokens o k =
      (.error (.valueError empty_msg), k + 1,
       [.queryTokenBalance address1 (o k)]) ∧
    empty_msg = "Saldo token kosong, tidak ada yang bisa ditransfer".data ∧
    (transfer_all_tokens o k).2.2.countP isSendRaw = 0 := by
  refine ⟨transfer_all_tokens_err_eq o k h, rfl, ?_⟩
  rw [transfer_all_tokens_err_eq o k h]
  simp [List.countP_cons, isSendRaw]

/-- Oracle for the C2 witness: every read returns 0. -/
def oC2 : Nat → Nat := fun _ => 0

/-- Witness for C2 at a zero balance read. -/
theorem transfer_all_tokens_empty_witness :
    transfer_all_tokens oC2 0 =
      (.error (.valueError empty_msg), 1,
       [.queryTokenBalance address1 (oC2 0)]) :=
  (transfer_all_tokens_empty oC2 0 (by decide)).1

/-- C3: with a sufficient Funder balance, `send_gas_fee` broadcasts exactly
the funding transaction the specification describes — a plain native
transfer to the Holder of exactly `150000 * gasPrice`, gas limit 21000 (not
the 150000 of the estimate), current gas price, the Funder's transaction
count as nonce, chain id 10, signed with the Funder's key — and returns the
transaction hash (modelled by the signed payload) together with the amount
sent. -/
theorem send_gas_fee_sufficient (o : Nat → Nat) (k : Nat)
    (h : 150000 * o k ≤ o (k + 1)) :
    send_gas_fee o k =
      (.ok (fundingTx (o k) (o (k + 2)), 150000 * o k), k + 3,
       [.queryGasPrice (o k), .queryEthBalance address2 (o (k + 1)),
        .queryNonce address2 (o (k + 2)),
        .sendRaw (fundingTx (o k) (o (k + 2)))]) :=
  send_gas_fee_ok_eq o k h

/-- Oracle for the C3 witness: gas price 1, Funder balance 150000. -/
def oC3 : Nat → Nat := fun i => if i = 1 then 150000 else 1

/-- Witness for C3: the broadcast funding transaction at a concrete state. -/
theorem send_gas_fee_sufficient_witness :
    send_gas_fee oC3 0 =
      (.ok (fundingTx (oC3 0) (oC3 2), 150000 * oC3 0), 3,
       [.queryGasPrice (oC3 0), .queryEthBalance address2 (oC3 1),
        .queryNonce address2 (oC3 2),
        .sendRaw (fundingTx (oC3 0) (oC3 2))]) :=
  send_gas_fee_sufficient oC3 0 (by decide)

/-- C4: with a positive balance read `b`, `transfer_all_tokens` broadcasts
exactly the sweep transaction the specification describes — a call of the
token contract's `transfer(Funder, b)` with gas limit 150000, current gas
price, the Holder's transaction count as nonce, chain id 10, signed with the
Holder's key — and returns the transaction hash. -/
theorem transfer_all_tokens_positive (o : Nat → Nat) (k : Nat)
    (h : o k ≠ 0) :
    transfer_all_tokens o k =
      (.ok (sweepTx (o k) (o (k + 1)) (o (k + 2))), k + 3,
       [.queryTokenBalance address1 (o k), .queryGasPrice (o (k + 1)),
        .queryNonce address1 (o (k + 2)),
        .sendRaw (sweepTx (o k) (o (k + 1)) (o (k + 2)))]) :=
  transfer_all_tokens_ok_eq o k h

/-- Oracle for the C4 witness: every read returns 1. -/
def oC4 : Nat → Nat := fun _ => 1

/-- Witness for C4: the broadcast sweep transaction at a concrete state. -/
theorem transfer_all_tokens_positive_witness :
    transfer_all_tokens oC4 0 =
      (.ok (sweepTx (oC4 0) (oC4 1) (oC4 2)), 3,
       [.queryTokenBalance address1 (oC4 0), .queryGasPrice (oC4 1),
        .queryNonce address1 (oC4 2),
        .sendRaw (sweepTx (oC4 0) (oC4 1) (oC4 2))]) :=
  transfer_all_tokens_positive oC4 0 (by decide)

/-! ### Branch behaviour of one transfer cycle -/

theorem cycle_body_zero_eq (o : Nat → Nat) (k : Nat) (h : o (k + 4) = 0) :
    cycle_body o k =
      (.ok (), k + 5,
       pbiTrace o k ++ [.queryTokenBalance address1 (o (k + 4))] ++
         [.printMsg nothing_msg]) := by
  simp [cycle_body, print_balance_info, h]

theorem cycle_body_insufficient_eq (o : Nat → Nat) (k : Nat)
    (h0 : 0 < o (k + 4)) (h : o (k + 6) < 150000 * o (k + 5)) :
    cycle_body o k =
      (.error (.valueError (insufficient_msg
          (150000 * o (k + 5) - o (k + 6)) (150000 * o (k + 5)) (o (k + 6)))),
       k + 7,
       pbiTrace o k ++ [.queryTokenBalance address1 (o (k + 4))] ++
         [.queryGasPrice (o (k + 5)), .queryEthBalance address2 (o (k + 6))]) := by
  simp [cycle_body, print_balance_info, Nat.add_assoc, h0,
    send_gas_fee_err_eq o (k + 5) h]

theorem cycle_body_emptyread_eq (o : Nat → Nat) (k : Nat)
    (h0 : 0 < o (k + 4)) (hf : 150000 * o (k + 5) ≤ o (k + 6))
    (hb : o (k + 8) = 0) :
    cycle_body o k =
      (.error (.valueError empty_msg), k + 9,
       pbiTrace o k ++ [.queryTokenBalance address1 (o (k + 4))] ++
         [.queryGasPrice (o (k + 5)), .queryEthBalance address2 (o (k + 6)),
          .queryNonce address2 (o (k + 7)),
          .sendRaw (fundingTx (o (k + 5)) (o (k + 7)))] ++
         [.sleep 1] ++ [.queryTokenBalance address1 (o (k + 8))]) := by
  simp [cycle_body, print_balance_info, Nat.add_assoc, h0,
    send_gas_fee_ok_eq o (k + 5) hf, transfer_all_tokens_err_eq o (k + 8) hb]

theorem cycle_body_ok_eq (o : Nat → Nat) (k : Nat)
    (h0 : 0 < o (k + 4)) (hf : 150000 * o (k + 5) ≤ o (k + 6))
    (hb : o (k + 8) ≠ 0) :
    cycle_body o k =
      (.ok (), k + 15,
       pbiTrace o k ++ [.queryTokenBalance address1 (o (k + 4))] ++
         [.queryGasPrice (o (k + 5)), .queryEthBalance address2 (o (k + 6)),
          .queryNonce address2 (o (k + 7)),
          .sendRaw (fundingTx (o (k + 5)) (o (k + 7)))] ++
         [.sleep 1] ++
         [.queryTokenBalance address1 (o (k + 8)), .queryGasPrice (o (k + 9)),
          .queryNonce address1 (o (k + 10)),
          .sendRaw (sweepTx (o (k + 8)) (o (k + 9)) (o (k + 10)))] ++
         [.sleep 1] ++ pbiTrace o (k + 11)) := by
  simp [cycle_body, print_balance_info, Nat.add_assoc, h0,
    send_gas_fee_ok_eq o (k + 5) hf, transfer_all_tokens_ok_eq o (k + 8) hb]

theorem etc_zero_eq (o : Nat → Nat) (k : Nat) (h : o (k + 4) = 0) :
    execute_transfer_cycle o k =
      (k + 5,
       pbiTrace o k ++ [.queryTokenBalance address1 (o (k + 4))] ++
         [.printMsg nothing_msg]) := by
  simp [execute_transfer_cycle, cycle_body_zero_eq o k h]

theorem etc_insufficient_eq (o : Nat → Nat) (k : Nat)
    (h0 : 0 < o (k + 4)) (h : o (k + 6) < 150000 * o (k + 5)) :
    execute_transfer_cycle o k =
      (k + 7,
       pbiTrace o k ++ [.queryTokenBalance address1 (o (k + 4))] ++
         [.queryGasPrice (o (k + 5)), .queryEthBalance address2 (o (k + 6))] ++
         [error_event (.valueError (insufficient_msg
            (150000 * o (k + 5) - o (k + 6)) (150000 * o (k + 5))
            (o (k + 6))))]) := by
  simp [execute_transfer_cycle, cycle_body_insufficient_eq o k h0 h]

theorem etc_emptyread_eq (o : Nat → Nat) (k : Nat)
    (h0 : 0 < o (k + 4)) (hf : 150000 * o (k + 5) ≤ o (k + 6))
    (hb : o (k + 8) = 0) :
    execute_transfer_cycle o k =
      (k + 9,
       pbiTrace o k ++ [.queryTokenBalance address1 (o (k + 4))] ++
         [.queryGasPrice (o (k + 5)), .queryEthBalance address2 (o (k + 6)),
          .queryNonce address2 (o (k + 7)),
          .sendRaw (fundingTx (o (k + 5)) (o (k + 7)))] ++
         [.sleep 1] ++ [.queryTokenBalance address1 (o (k + 8))] ++
         [error_event (.valueError empty_msg)]) := by
  simp [execute_transfer_cycle, cycle_body_emptyread_eq o k h0 hf hb]

theorem etc_ok_eq (o : Nat → Nat) (k : Nat)
    (h0 : 0 < o (k + 4)) (hf : 150000 * o (k + 5) ≤ o (k + 6))
    (hb : o (k + 8) ≠ 0) :
    execute_transfer_cycle o k =
      (k + 15,
       pbiTrace o k ++ [.queryTokenBalance address1 (o (k + 4))] ++
         [.queryGasPrice (o (k + 5)), .queryEthBalance address2 (o (k + 6)),
          .queryNonce address2 (o (k + 7)),
          .sendRaw (fundingTx (o (k + 5)) (o (k + 7)))] ++
         [.sleep 1] ++
         [.queryTokenBalance address1 (o (k + 8)), .queryGasPrice (o (k + 9)),
          .queryNonce address1 (o (k + 10)),
          .sendRaw (sweepTx (o (k + 8)) (o (k + 9)) (o (k + 10)))] ++
         [.sleep 1] ++ pbiTrace o (k + 11)) := by
  simp [execute_transfer_cycle, cycle_body_ok_eq o k h0 hf hb]

theorem cycle_countP_cycleStart (o : Nat → Nat) (k : Nat) :
    ((execute_transfer_cycle o k).2).countP isCycleStart = 0 := by
  rcases Nat.eq_zero_or_pos (o (k + 4)) with h0 | h0
  · rw [etc_zero_eq o k h0]
    simp [pbiTrace, isCycleStart, List.countP_append, List.countP_cons]
  · by_cases hf : o (k + 6) < 150000 * o (k + 5)
    · rw [etc_insufficient_eq o k h0 hf]
      simp [pbiTrace, isCycleStart, error_event, List.countP_append,
        List.countP_cons]
    · have hf' : 150000 * o (k + 5) ≤ o (k + 6) := Nat.not_lt.mp hf
      by_cases hb : o (k + 8) = 0
      · rw [etc_emptyread_eq o k h0 hf' hb]
        simp [pbiTrace, isCycleStart, error_event, List.countP_append,
          List.countP_cons]
      · rw [etc_ok_eq o k h0 hf' hb]
        simp [pbiTrace, isCycleStart, List.countP_append, List.countP_cons]

theorem run_cycles_countP (o : Nat → Nat) (n : Nat) :
    ∀ k i, ((run_cycles o k i n).2).countP isCycleStart = n := by
  induction n with
  | zero => intro k i; rfl
  | succ n ih =>
    intro k i
    simp [run_cycles, List.countP_append, List.countP_cons, isCycleStart,
      cycle_countP_cycleStart, ih]

/-- C6: every exception an inner step raises is caught at the cycle
boundary: when the body errors, the cycle returns normally with the body's
trace followed by one labelled error print; the handler's label is always
one of ERROR, ERROR KONTRAK, ERROR TIDAK DIKENAL (for `ValueError`,
`ContractLogicError` and everything else respectively); and the outer loop
performs exactly its `n` scheduled cycles whatever the oracle does — only
the external cancellation (the bound `n`) ends it. -/
theorem cycle_error_containment (o : Nat → Nat) (k i n : Nat) :
    ((run_cycles o k i n).2).countP isCycleStart = n ∧
    (∀ e, (cycle_body o k).1 = .error e →
        execute_transfer_cycle o k
          = ((cycle_body o k).2.1, (cycle_body o k).2.2 ++ [error_event e])) ∧
    (∀ e : Err, error_event e = .printError (error_label e) (err_text e) ∧
        (error_label e = "ERROR".data ∨ error_label e = "ERROR KONTRAK".data ∨
          error_label e = "ERROR TIDAK DIKENAL".data)) := by
  refine ⟨run_cycles_countP o n k i, ?_, ?_⟩
  · intro e he
    unfold execute_transfer_cycle
    rcases hcb : cycle_body o k with ⟨r1, k1, t⟩
    rw [hcb] at he
    simp only at he
    subst he
    rfl
  · intro e
    refine ⟨rfl, ?_⟩
    cases e with
    | valueError m => exact Or.inl rfl
    | contractLogicError m => exact Or.inr (Or.inl rfl)
    | other nm m => exact Or.inr (Or.inr rfl)

/-- Oracle for the C6 witness: positive guard balance, zero gas price (so
the funding step succeeds trivially), zero sweep balance (so the sweep step
raises). -/
def oC6 : Nat → Nat := fun i => if i = 4 then 1 else 0

/-- Witness for C6: a body that raises the empty-balance error is caught and
turned into one labelled error print. -/
theorem cycle_error_containment_witness :
    execute_transfer_cycle oC6 0
      = ((cycle_body oC6 0).2.1,
         (cycle_body oC6 0).2.2 ++ [error_event (.valueError empty_msg)]) :=
  (cycle_error_containment oC6 0 1 0).2.1 (.valueError empty_msg) rfl

/-- C7: a cycle whose guard reads a zero Holder token balance prints the
no-token message and returns normally, performing no broadcast and printing
no error. -/
theorem cycle_zero_balance (o : Nat → Nat) (k : Nat) (h : o (k + 4) = 0) :
    execute_transfer_cycle o k =
      (k + 5,
       pbiTrace o k ++ [.queryTokenBalance address1 (o (k + 4))] ++
         [.printMsg nothing_msg]) ∧
    Event.printMsg nothing_msg ∈ (execute_transfer_cycle o k).2 ∧
    (execute_transfer_cycle o k).2.countP isSendRaw = 0 ∧
    (execute_transfer_cycle o k).2.countP isPrintError = 0 := by
  have he := etc_zero_eq o k h
  refine ⟨he, ?_, ?_, ?_⟩ <;> rw [he] <;>
    simp [pbiTrace, isSendRaw, isPrintError, List.countP_append,
      List.countP_cons]

/-- Oracle for the C7 witness: every read returns 0. -/
def oC7 : Nat → Nat := fun _ => 0

/-- Witness for C7: no broadcast happens in a zero-balance cycle. -/
theorem cycle_zero_balance_witness :
    (execute_transfer_cycle oC7 0).2.countP isSendRaw = 0 :=
  (cycle_zero_balance oC7 0 (by decide)).2.2.1

/-- C8: with a positive guard balance, a sufficient Funder balance and a
positive sweep-time balance, the cycle's trace is exactly: balance report,
funding broadcast, a 1-unit sleep, sweep broadcast, another 1-unit sleep,
and a second balance report, in this order. -/
theorem cycle_success_order (o : Nat → Nat) (k : Nat)
    (h0 : 0 < o (k + 4)) (hf : 150000 * o (k + 5) ≤ o (k + 6))
    (hb : 0 < o (k + 8)) :
    execute_transfer_cycle o k =
      (k + 15,
       pbiTrace o k ++ [.queryTokenBalance address1 (o (k + 4))] ++
         [.queryGasPrice (o (k + 5)), .queryEthBalance address2 (o (k + 6)),
          .queryNonce address2 (o (k + 7)),
          .sendRaw (fundingTx (o (k + 5)) (o (k + 7)))] ++
         [.sleep 1] ++
         [.queryTokenBalance address1 (o (k + 8)), .queryGasPrice (o (k + 9)),
          .queryNonce address1 (o (k + 10)),
          .sendRaw (sweepTx (o (k + 8)) (o (k + 9)) (o (k + 10)))] ++
         [.sleep 1] ++ pbiTrace o (k + 11)) :=
  etc_ok_eq o k h0 hf (by omega)

/-- Oracle for the C8 witness: Funder balance 150000 at gas price 1, all
other reads 1. -/
def oC8 : Nat → Nat := fun i => if i = 6 then 150000 else 1

/-- Witness for C8 at a concrete state. -/
theorem cycle_success_order_witness :
    execute_transfer_cycle oC8 0 =
      (15,
       pbiTrace oC8 0 ++ [.queryTokenBalance address1 (oC8 4)] ++
         [.queryGasPrice (oC8 5), .queryEthBalance address2 (oC8 6),
          .queryNonce address2 (oC8 7),
          .sendRaw (fundingTx (oC8 5) (oC8 7))] ++
         [.sleep 1] ++
         [.queryTokenBalance address1 (oC8 8), .queryGasPrice (oC8 9),
          .queryNonce address1 (oC8 10),
          .sendRaw (sweepTx (oC8 8) (oC8 9) (oC8 10))] ++
         [.sleep 1] ++ pbiTrace oC8 11) :=
  cycle_success_order oC8 0 (by decide) (by decide) (by decide)

/-- C10: `transfer_all_tokens` works from its own fresh balance query, not
the cycle guard's: whatever positive value the guard read, the swept amount
is exactly the later read `o (k+8)` made by `transfer_all_tokens` itself,
and if that later read is zero the empty-balance error is raised (and
caught, leaving only the funding broadcast) even though the guard saw a
positive balance. -/
theorem transfer_fresh_balance_read (o : Nat → Nat) (k : Nat)
    (h0 : 0 < o (k + 4)) (hf : 150000 * o (k + 5) ≤ o (k + 6)) :
    (o (k + 8) ≠ 0 →
      Event.sendRaw (sweepTx (o (k + 8)) (o (k + 9)) (o (k + 10)))
        ∈ (execute_transfer_cycle o k).2) ∧
    (o (k + 8) = 0 →
      Event.printError "ERROR".data empty_msg
          ∈ (execute_transfer_cycle o k).2 ∧
        (execute_transfer_cycle o k).2.countP isSendRaw = 1) := by
  constructor
  · intro hb
    rw [etc_ok_eq o k h0 hf hb]
    simp
  · intro hb
    rw [etc_emptyread_eq o k h0 hf hb]
    constructor
    · simp [error_event, error_label, err_text]
    · simp [pbiTrace, isSendRaw, error_event, List.countP_append,
        List.countP_cons]

/-- Oracle for the C10 witness: guard balance 1, Funder balance 150000, but
the sweep-time balance read is 0. -/
def oC10 : Nat → Nat := fun i => if i = 8 then 0 else if i = 6 then 150000 else 1

/-- Witness for C10: the empty-balance error fires at sweep time although
the guard read a positive balance. -/
theorem transfer_fresh_balance_read_witness :
    Event.printError "ERROR".data empty_msg
      ∈ (execute_transfer_cycle oC10 0).2 :=
  ((transfer_fresh_balance_read oC10 0 (by decide) (by decide)).2
    (by decide)).1

end MetaTx

